/-
Verification of the detection-and-confirmation pipeline of the
live-currency-converter-camera application (source file src/src/App.tsx).

The TypeScript component is shallowly embedded in Lean: pixel and
coordinate arithmetic is modelled over the rationals, the component's
React state is an explicit record, and each event handler becomes a
state-transformer function.  External collaborators (the OCR engine,
the rate API, the camera and canvas) enter as explicit parameters
carrying their outcome for one invocation.
-/
import Mathlib

namespace App

/-! ## Price pattern matching (App.tsx lines 166-189)

The source matches the recognized text against the regular expression

  (?:[\$\€\£\¥\₱]?\s*\d{1,3}(?:,\d{3})*(?:\.\d{2})?)
  |(?:\d{1,3}(?:,\d{3})*(?:\.\d{2})?\s*[\$\€\£\¥\₱]?)

with JavaScript `String.prototype.match` semantics: the match is the
leftmost position at which the whole pattern matches, the first
alternative is preferred, and quantifiers are greedy.  Because the
currency symbol of the first alternative is optional, the first
alternative succeeds at every position where the second does (the
second requires the number immediately), so the second alternative is
never the winner; greedy matching of the sub-pattern
`\d{1,3}(,\d{3})*(\.\d{2})?` is deterministic because each of its
parts starts with a distinct character class.  The functions below
implement exactly that deterministic residue of the regex. -/

/-- One of the currency symbols of the character class `[\$\€\£\¥\₱]`. -/
def isCurrencySym (c : Char) : Bool :=
  c == '$' || c == '€' || c == '£' || c == '¥' || c == '₱'

/-- Whitespace as matched by the regex class `\s`. -/
def isJsWs (c : Char) : Bool :=
  c.isWhitespace

/-- Greedily take up to `n` leading digits: the matcher for `\d{1,3}`
(first component: consumed digits; second: remaining input). -/
def splitDigits : Nat → List Char → List Char × List Char
  | 0, cs => ([], cs)
  | _ + 1, [] => ([], [])
  | n + 1, c :: cs =>
    if c.isDigit then
      let p := splitDigits n cs
      (c :: p.1, p.2)
    else ([], c :: cs)

/-- Greedy matcher for `(?:,\d{3})*`: consume as many `,ddd` groups as
possible. -/
def matchGroups : List Char → List Char × List Char
  | ',' :: a :: b :: c :: rest =>
    if a.isDigit && b.isDigit && c.isDigit then
      let p := matchGroups rest
      (',' :: a :: b :: c :: p.1, p.2)
    else ([], ',' :: a :: b :: c :: rest)
  | cs => ([], cs)

/-- Greedy matcher for `(?:\.\d{2})?`. -/
def matchDec : List Char → List Char × List Char
  | '.' :: a :: b :: rest =>
    if a.isDigit && b.isDigit then (['.', a, b], rest)
    else ([], '.' :: a :: b :: rest)
  | cs => ([], cs)

/-- Matcher for the number sub-pattern `\d{1,3}(?:,\d{3})*(?:\.\d{2})?`
anchored at the start of the input; returns the matched characters and
the rest on success. -/
def matchNum (cs : List Char) : Option (List Char × List Char) :=
  let d := splitDigits 3 cs
  if d.1.isEmpty then none
  else
    let g := matchGroups d.2
    let f := matchDec g.2
    some (d.1 ++ g.1 ++ f.1, f.2)

/-- The whole pattern anchored at the start of the input (the surviving
first alternative `[\$\€\£\¥\₱]?\s*\d{1,3}(?:,\d{3})*(?:\.\d{2})?`).
When the head is a currency symbol, backtracking the optional symbol to
empty cannot help, because `\s*` then stops at the symbol and `\d`
rejects it; when the head is not a symbol, only the maximal whitespace
run can be followed by a digit.  Hence the deterministic shape below. -/
def matchAlt1 (cs : List Char) : Option (List Char) :=
  match cs with
  | [] => none
  | c :: rest =>
    if isCurrencySym c then
      match matchNum (rest.dropWhile isJsWs) with
      | some p => some (c :: rest.takeWhile isJsWs ++ p.1)
      | none => none
    else
      match matchNum ((c :: rest).dropWhile isJsWs) with
      | some p => some ((c :: rest).takeWhile isJsWs ++ p.1)
      | none => none

/-- Leftmost-match scan of JavaScript `String.prototype.match`. -/
def findMatch : List Char → Option (List Char)
  | [] => none
  | c :: rest =>
    match matchAlt1 (c :: rest) with
    | some m => some m
    | none => findMatch rest

/-- `data.text.match(currencyPattern)`, reduced to the matched
substring `match[0]` (App.tsx line 168). -/
def jsMatch (s : String) : Option String :=
  (findMatch s.data).map String.mk

/-! ## Extraction (App.tsx lines 170-200) -/

/-- `needle` is a prefix of `hay` (character lists). -/
def listPfx : List Char → List Char → Bool
  | [], _ => true
  | _ :: _, [] => false
  | a :: as, b :: bs => a == b && listPfx as bs

/-- `needle` occurs as a contiguous substring of `hay`:
JavaScript `String.prototype.includes`. -/
def listSub (needle : List Char) : List Char → Bool
  | [] => listPfx needle []
  | c :: cs => listPfx needle (c :: cs) || listSub needle cs

/-- `hay.includes(needle)` on strings. -/
def strIncludes (hay needle : String) : Bool :=
  listSub needle.data hay.data

/-- `s.replace(/[,\s]/g, '')`: strip commas and whitespace
(App.tsx line 173). -/
def stripCS (s : String) : String :=
  String.mk (s.data.filter fun c => !(c == ',' || c.isWhitespace))

/-- `numberMatch[0].replace(/[^\d.]/g, '')`: keep only digits and the
decimal point (App.tsx line 189). -/
def cleanNumber (m : String) : String :=
  String.mk (m.data.filter fun c => c.isDigit || c == '.')

/-- A recognized token: text plus bounding box, as returned in
`data.words` by the recognizer (App.tsx lines 170-177). -/
structure PixelBox where
  x0 : ℚ
  y0 : ℚ
  x1 : ℚ
  y1 : ℚ
deriving DecidableEq

structure Token where
  text : String
  bbox : PixelBox
deriving DecidableEq

/-- The word-association predicate of `data.words.find` (App.tsx
lines 171-174): the token's text contains the match directly, or
contains it after both are stripped of commas and whitespace. -/
def wordAssociates (m : String) (w : Token) : Bool :=
  strIncludes w.text m || strIncludes (stripCS w.text) (stripCS m)

/-- The price extracted from one recognition result (spec §3
`DetectedPrice`): the raw regex match, its digits-and-dot
normalization, and the bounding box of the associated token. -/
structure DetectedPrice where
  rawMatch : String
  normalizedAmount : String
  sourceBox : PixelBox
deriving DecidableEq

/-- The pure extraction residue of App.tsx lines 166-200: match the
currency pattern against the full text, require a nonempty word list,
and associate the match with the first token satisfying
`wordAssociates`; any failure yields `none` (the `No price found`
branches of the source). -/
def extract (text : String) (words : List Token) : Option DetectedPrice :=
  match jsMatch text with
  | none => none
  | some m =>
    if words.isEmpty then none
    else
      match words.find? (wordAssociates m) with
      | none => none
      | some w => some ⟨m, cleanNumber m, w.bbox⟩

/-! ## Frame preprocessing (App.tsx lines 32-63, `preprocessImage`)

Pixel arithmetic is modelled over the rationals; the channel bytes of
the RGBA frame are natural numbers. -/

/-- One RGBA pixel of the canvas image data. -/
structure Pixel where
  r : Nat
  g : Nat
  b : Nat
  a : Nat
deriving DecidableEq

/-- `gray = 0.299 * r + 0.587 * g + 0.114 * b` (App.tsx line 47). -/
def grayOf (r g b : ℚ) : ℚ :=
  0.299 * r + 0.587 * g + 0.114 * b

/-- `factor = (259 * (contrast + 255)) / (255 * (259 - contrast))` with
`contrast = 1.5` (App.tsx lines 50-51). -/
def contrastFactor : ℚ :=
  (259 * (1.5 + 255)) / (255 * (259 - 1.5))

/-- `newValue = factor * (gray - 128) + 128` (App.tsx line 52). -/
def adjust (gray : ℚ) : ℚ :=
  contrastFactor * (gray - 128) + 128

/-- `final = newValue > 128 ? 255 : 0` (App.tsx line 55). -/
def binarize (v : ℚ) : Nat :=
  if 128 < v then 255 else 0

/-- The per-pixel body of the preprocessing loop: the three colour
channels all receive the binarized value, the alpha channel is not
written (App.tsx lines 41-60). -/
def preprocessPixel (p : Pixel) : Pixel :=
  let f := binarize (adjust (grayOf p.r p.g p.b))
  ⟨f, f, f, p.a⟩

/-- `preprocessImage` applied to the whole frame. -/
def preprocessImage (frame : List Pixel) : List Pixel :=
  frame.map preprocessPixel

/-! ## Coordinate mapping (App.tsx lines 178-187)

`scaleX = videoElement.offsetWidth / canvas.width`,
`scaleY = videoElement.offsetHeight / canvas.height`, and the detected
bounds are `{x: bbox.x0 * scaleX, y: bbox.y0 * scaleY,
width: (bbox.x1 - bbox.x0) * scaleX, height: (bbox.y1 - bbox.y0) * scaleY}`. -/

/-- A width/height pair: the canvas dimensions (source space) or the
rendered video element dimensions (target space). -/
structure Dims where
  w : ℚ
  h : ℚ
deriving DecidableEq

/-- A box in the coordinate space of the on-screen video element, in
the `{x, y, width, height}` form stored in `detectedBounds`. -/
structure DisplayBox where
  x : ℚ
  y : ℚ
  width : ℚ
  height : ℚ
deriving DecidableEq

/-- The coordinate mapping of App.tsx lines 178-187. -/
def mapBox (b : PixelBox) (source target : Dims) : DisplayBox :=
  let scaleX := target.w / source.w
  let scaleY := target.h / source.h
  ⟨b.x0 * scaleX, b.y0 * scaleY, (b.x1 - b.x0) * scaleX, (b.y1 - b.y0) * scaleY⟩

/-! ## Conversion gateway (App.tsx lines 84-100)

The remote response is modelled as `Option (List (String × ℚ))`:
`none` stands for a response whose `data` or `data.rates` is falsy
(the `Invalid API response format` branch), `some rates` for the JSON
object `{rates: {...}}` as a key/value list.  `convertedValue.toFixed(2)`
is modelled by exact rational rounding to hundredths, half away from
zero upwards (the ECMAScript `toFixed` rounding rule: the nearest
hundredth, ties towards the larger value). -/

/-- `q` scaled to hundredths and rounded to the nearest integer, ties
up: the integer rendered by `q.toFixed(2)`. -/
def jsToFixed2 (q : ℚ) : ℤ :=
  ⌊q * 100 + 1 / 2⌋

/-- Decimal rendering of `q.toFixed(2)`. -/
def formatFixed2 (q : ℚ) : String :=
  let n := jsToFixed2 q
  let sign := if n < 0 then "-" else ""
  let m := n.natAbs
  sign ++ toString (m / 100) ++ "." ++
    (if m % 100 < 10 then "0" else "") ++ toString (m % 100)

/-- Outcome of one conversion call (the body of the `try` block of
`processConversion`): either the display string handed to
`setConvertedAmount`, or one of the two thrown errors. -/
inductive ConvOutcome where
  | success (display : String)
  | errNotFound
  | errMalformed
deriving DecidableEq

/-- The response handling of App.tsx lines 90-100.  Note that the
source tests the rate with JavaScript truthiness (`if (convertedValue)`),
so a rate that is present but equal to `0` takes the
`Currency not found in response` branch. -/
def convert (resp : Option (List (String × ℚ))) (toC : String) : ConvOutcome :=
  match resp with
  | none => .errMalformed
  | some rates =>
    match rates.lookup toC with
    | none => .errNotFound
    | some v =>
      if v = 0 then .errNotFound
      else .success (toC ++ " " ++ formatFixed2 v)

/-- `true` on the two error outcomes (the `catch` branch fires). -/
def convIsFailure : ConvOutcome → Bool
  | .success _ => false
  | .errNotFound => true
  | .errMalformed => true

/-! ## The component state (App.tsx lines 17-30)

One field per `useState` hook (plus the two currency selections);
`fromCurrency`/`toCurrency` are reduced to their three-letter codes,
which is all the pipeline reads. -/

structure AppState where
  fromCurrency : String
  toCurrency : String
  isModalOpen : Bool
  convertedAmount : Option String
  isProcessing : Bool
  detectedBounds : Option DisplayBox
  isVideoPlaying : Bool
  detectedNumber : Option String
  showConfirmation : Bool
  pendingAmount : Option String
  detectedText : Option String
deriving DecidableEq

/-- JavaScript truthiness of a nullable string state value
(`pendingAmount ? ... : ...`): non-null and nonempty. -/
def optStrTruthy : Option String → Bool
  | none => false
  | some t => !t.data.isEmpty

def msgNoPrice : String := "No price found. Please try again."
def msgErrProcessing : String := "Error processing image. Please try again."
def msgConvFailed : String := "Conversion failed. Please try again."

/-! ## Event handlers as state transformers

Each handler of App.tsx runs to completion for one externally supplied
outcome; the two asynchronous handlers are additionally split at their
suspension point (the `await` of the OCR call and of the rate request)
into a synchronous start and a resumption, so that interleavings with
other events can be expressed. -/

/-- Outcome of the OCR portion of one `captureImage` call: the
recognized text and word list, or a throw before the worker exists
(`createWorker` itself fails), or a throw after it exists
(`loadLanguage`/`initialize`/`setParameters`/`recognize` fails). -/
inductive OcrOutcome where
  | ok (text : String) (words : List Token)
  | errBeforeCreate
  | errAfterCreate
deriving DecidableEq

/-- Engine lifecycle actions performed by one `captureImage` call:
`createWorker()` and `worker.terminate()`. -/
inductive EngineEvent where
  | create
  | terminate
deriving DecidableEq

/-- The synchronous prefix of `captureImage` (App.tsx lines 110-135):
pause the video, then reset the per-capture state and raise the
processing flag.  `detectedBounds`, `detectedText` and
`convertedAmount` are NOT touched here. -/
def captureStart (s : AppState) : AppState :=
  { s with isVideoPlaying := false, isProcessing := true,
           detectedNumber := none, pendingAmount := none,
           showConfirmation := false }

/-- The rest of `captureImage` (App.tsx lines 137-207): the OCR
try/catch/finally block together with extraction and the coordinate
mapping.  `source` are the canvas dimensions, `target` the rendered
video element dimensions.  The second component records the engine
lifecycle actions executed on that path: `worker.terminate()` (line
164) sits inside the `try` after `recognize`, so the error path
performs no disposal. -/
def captureResolve (s : AppState) (o : OcrOutcome) (source target : Dims) :
    AppState × List EngineEvent :=
  match o with
  | .errBeforeCreate =>
    ({ s with showConfirmation := true, detectedText := some msgErrProcessing,
              isProcessing := false }, [])
  | .errAfterCreate =>
    ({ s with showConfirmation := true, detectedText := some msgErrProcessing,
              isProcessing := false }, [.create])
  | .ok text words =>
    match extract text words with
    | some dp =>
      ({ s with detectedBounds := some (mapBox dp.sourceBox source target),
                detectedText := some dp.rawMatch,
                pendingAmount := some dp.normalizedAmount,
                showConfirmation := true, isProcessing := false },
       [.create, .terminate])
    | none =>
      ({ s with showConfirmation := true, detectedText := some msgNoPrice,
                isProcessing := false }, [.create, .terminate])

/-- One whole `captureImage` call. -/
def captureImage (s : AppState) (o : OcrOutcome) (source target : Dims) :
    AppState × List EngineEvent :=
  captureResolve (captureStart s) o source target

/-- The synchronous prefix of `processConversion` (App.tsx lines
78-82): the `if (!pendingAmount) return` guard, then close the
confirmation sheet and raise the processing flag. -/
def processConversionStart (s : AppState) : AppState :=
  if optStrTruthy s.pendingAmount then
    { s with showConfirmation := false, isProcessing := true }
  else s

/-- The resumption of `processConversion` after the rate request
resolves (App.tsx lines 90-107): success stores the display string and
opens the modal; the two thrown errors are caught and surface as the
failure message on the reopened confirmation sheet; `finally` clears
the processing flag. -/
def processConversionResolve (s : AppState)
    (resp : Option (List (String × ℚ))) : AppState :=
  match convert resp s.toCurrency with
  | .success display =>
    { s with convertedAmount := some display, isModalOpen := true,
             isProcessing := false }
  | _ =>
    { s with detectedText := some msgConvFailed, showConfirmation := true,
             isProcessing := false }

/-- One whole `processConversion` call. -/
def processConversion (s : AppState) (resp : Option (List (String × ℚ))) :
    AppState :=
  if optStrTruthy s.pendingAmount then
    processConversionResolve (processConversionStart s) resp
  else s

/-- `resetCamera` (App.tsx lines 210-226): resume the video and reset
every per-cycle state value. -/
def resetCamera (s : AppState) : AppState :=
  { s with isVideoPlaying := true, detectedBounds := none,
           isModalOpen := false, showConfirmation := false,
           pendingAmount := none, detectedText := none,
           detectedNumber := none, convertedAmount := none,
           isProcessing := false }

/-- The session states of spec §3/§4.6, read off the render conditions
of App.tsx: the result modal (line 352) shows iff `isModalOpen`; the
processing overlay (line 329) shows while `isProcessing`; the bottom
sheet (line 376) shows iff `showConfirmation`, rendering the
confirmation UI when `pendingAmount` is truthy (line 385) and the
`Detection Failed` UI otherwise (line 409); with none of those, a
playing video is the idle camera view. -/
inductive Session where
  | Idle
  | AwaitingConfirmation
  | Converting
  | ShowingResult
  | Failed
  | Paused
deriving DecidableEq

def sessionView (s : AppState) : Session :=
  if s.isModalOpen then .ShowingResult
  else if s.isProcessing then .Converting
  else if s.showConfirmation then
    if optStrTruthy s.pendingAmount then .AwaitingConfirmation else .Failed
  else if s.isVideoPlaying then .Idle
  else .Paused

/-- User-triggered events, each carrying the outcome of its external
collaborator for that invocation. -/
inductive Event where
  | capture (o : OcrOutcome) (source target : Dims)
  | confirm (resp : Option (List (String × ℚ)))
  | reset
deriving DecidableEq

/-- One event step, guarded the way the DOM guards the handlers:
`captureImage` only fires through the capture button, which is
`disabled={isProcessing || !isVideoPlaying}` (App.tsx line 344);
`processConversion` only fires through the Convert button, rendered
only on the confirmation sheet with a truthy `pendingAmount`
(App.tsx lines 385-396); `resetCamera` fires through the reset, Close,
Cancel and Try Again buttons, all rendered only while the video is
paused.  The second component is the engine-lifecycle trace of the
step. -/
def stepT (s : AppState) (e : Event) : AppState × List EngineEvent :=
  match e with
  | .capture o source target =>
    if s.isProcessing || !s.isVideoPlaying then (s, [])
    else captureImage s o source target
  | .confirm resp =>
    if s.showConfirmation && optStrTruthy s.pendingAmount then
      (processConversion s resp, [])
    else (s, [])
  | .reset =>
    if s.isVideoPlaying then (s, []) else (resetCamera s, [])

def stepE (s : AppState) (e : Event) : AppState :=
  (stepT s e).1

/-- The initial component state (App.tsx lines 17-30): currency codes
from the two dropdown defaults, video playing, everything else unset.
The currency codes are parameters so that every dropdown selection is
covered. -/
def initState (fromC toC : String) : AppState :=
  { fromCurrency := fromC, toCurrency := toC,
    isModalOpen := false, convertedAmount := none, isProcessing := false,
    detectedBounds := none, isVideoPlaying := true, detectedNumber := none,
    showConfirmation := false, pendingAmount := none, detectedText := none }

/-- States reachable from some initial state through guarded events. -/
inductive Reachable : AppState → Prop
  | init (fromC toC : String) : Reachable (initState fromC toC)
  | step (s : AppState) (e : Event) : Reachable s → Reachable (stepE s e)

/-! ## Controller invariant

While the video is playing, no overlay is up and every per-cycle value
is clear (the capture button is the only enabled control); while the
`Detection Failed` sheet is showing, the per-cycle values of the
previous cycle are clear and the shown text is one of the two fixed
failure messages; a pending amount, when present, is nonempty. -/

def Inv (s : AppState) : Prop :=
  (s.isVideoPlaying = true →
    s.isModalOpen = false ∧ s.showConfirmation = false ∧ s.isProcessing = false ∧
    s.detectedBounds = none ∧ s.pendingAmount = none ∧ s.detectedText = none ∧
    s.detectedNumber = none ∧ s.convertedAmount = none) ∧
  (s.isModalOpen = false → s.showConfirmation = true → s.pendingAmount = none →
    s.detectedBounds = none ∧ s.convertedAmount = none ∧ s.detectedNumber = none ∧
    (s.detectedText = some msgNoPrice ∨ s.detectedText = some msgErrProcessing)) ∧
  (∀ t, s.pendingAmount = some t → t.data.isEmpty = false)

/-! ## Concrete scenario states

One settled run: default currencies (PHP to USD per the two dropdown
defaults), a capture whose OCR reads "Total: $12.50 due" with an
associable token, a confirmation, and — for the cancellation analysis —
a reset issued between the start of the conversion request and its
resolution with response `{rates: {USD: 11.48}}`. -/

def bb0 : PixelBox := ⟨10, 20, 40, 32⟩

def w0 : Token := ⟨"$12.50", bb0⟩

def d0 : Dims := ⟨640, 480⟩

def t0 : Dims := ⟨320, 240⟩

def s0 : AppState := initState "PHP" "USD"

def sAC : AppState :=
  stepE s0 (Event.capture (OcrOutcome.ok "Total: $12.50 due" [w0]) d0 t0)

def sFailConv : AppState := stepE sAC (Event.confirm none)

def sInFlight : AppState := processConversionStart sAC

def sAfterReset : AppState := resetCamera sInFlight

def sLate : AppState :=
  processConversionResolve sAfterReset (some [("USD", (1148 / 100 : ℚ))])

def sNoPrice : AppState :=
  stepE s0 (Event.capture (OcrOutcome.ok "no price here" []) d0 t0)

/-! ## A matched price always contains a digit

The pattern requires `\d{1,3}`, so the raw match always contains a
digit and its digits-and-dot normalization is never empty.  This feeds
the controller invariant: a truthiness test on `pendingAmount` agrees
with a plain null test. -/

lemma splitDigits_digit :
    ∀ (n : Nat) (cs : List Char), ∀ c ∈ (splitDigits n cs).1, c.isDigit = true := by
  intro n
  induction n with
  | zero => intro cs c hc; simp [splitDigits] at hc
  | succ n ih =>
    intro cs c hc
    cases cs with
    | nil => simp [splitDigits] at hc
    | cons d ds =>
      by_cases hd : d.isDigit = true
      · simp only [splitDigits, hd, if_true, List.mem_cons] at hc
        rcases hc with h | h
        · rw [h]; exact hd
        · exact ih ds c h
      · simp [splitDigits, hd] at hc

lemma matchNum_digit {cs : List Char} {p : List Char × List Char}
    (h : matchNum cs = some p) : ∃ c ∈ p.1, c.isDigit = true := by
  simp only [matchNum] at h
  by_cases he : (splitDigits 3 cs).1.isEmpty = true
  · rw [if_pos he] at h; cases h
  · rw [if_neg he] at h
    cases hd : (splitDigits 3 cs).1 with
    | nil => rw [hd] at he; simp at he
    | cons c cs' =>
      have hdig := splitDigits_digit 3 cs c (by rw [hd]; exact List.mem_cons_self c cs')
      cases h
      refine ⟨c, ?_, hdig⟩
      simp [hd]

lemma matchAlt1_digit {cs : List Char} {l : List Char}
    (h : matchAlt1 cs = some l) : ∃ c ∈ l, c.isDigit = true := by
  unfold matchAlt1 at h
  cases cs with
  | nil => cases h
  | cons c rest =>
    by_cases hsym : isCurrencySym c = true
    · simp only [hsym, if_true] at h
      cases hm : matchNum (rest.dropWhile isJsWs) with
      | none => rw [hm] at h; cases h
      | some p =>
        rw [hm] at h
        obtain ⟨d, hd, hdig⟩ := matchNum_digit hm
        cases h
        exact ⟨d, by simp [hd], hdig⟩
    · simp only [hsym, if_false] at h
      cases hm : matchNum ((c :: rest).dropWhile isJsWs) with
      | none => rw [hm] at h; cases h
      | some p =>
        rw [hm] at h
        obtain ⟨d, hd, hdig⟩ := matchNum_digit hm
        cases h
        exact ⟨d, by simp [hd], hdig⟩

lemma findMatch_digit :
    ∀ {cs l : List Char}, findMatch cs = some l → ∃ c ∈ l, c.isDigit = true := by
  intro cs
  induction cs with
  | nil => intro l h; cases h
  | cons c rest ih =>
    intro l h
    unfold findMatch at h
    cases hm : matchAlt1 (c :: rest) with
    | none => rw [hm] at h; exact ih h
    | some m => rw [hm] at h; cases h; exact matchAlt1_digit hm

lemma jsMatch_digit {t m : String} (h : jsMatch t = some m) :
    ∃ c ∈ m.data, (c.isDigit || c == '.') = true := by
  unfold jsMatch at h
  cases hf : findMatch t.data with
  | none => rw [hf] at h; cases h
  | some l =>
    rw [hf] at h
    cases h
    obtain ⟨c, hc, hdig⟩ := findMatch_digit hf
    exact ⟨c, hc, by simp [hdig]⟩

lemma extract_pending_nonempty {text : String} {words : List Token}
    {dp : DetectedPrice} (h : extract text words = some dp) :
    dp.normalizedAmount.data.isEmpty = false := by
  unfold extract at h
  split at h
  · cases h
  · rename_i m hm
    split at h
    · cases h
    · split at h
      · cases h
      · rename_i w hw
        cases h
        obtain ⟨c, hc, hp⟩ := jsMatch_digit hm
        have hmem : c ∈ m.data.filter fun c => c.isDigit || c == '.' :=
          List.mem_filter.mpr ⟨hc, hp⟩
        simp only [cleanNumber]
        cases hfl : m.data.filter fun c => c.isDigit || c == '.' with
        | nil => rw [hfl] at hmem; cases hmem
        | cons a as => simp [String.mk, hfl]

lemma inv_init (fromC toC : String) : Inv (initState fromC toC) := by
  refine ⟨?_, ?_, ?_⟩ <;> simp [initState]

lemma inv_step (s : AppState) (e : Event) (h : Inv s) : Inv (stepE s e) := by
  obtain ⟨h1, h2, h3⟩ := h
  cases e with
  | capture o source target =>
    simp only [stepE, stepT]
    by_cases hg : (s.isProcessing || !s.isVideoPlaying) = true
    · rw [if_pos hg]; exact ⟨h1, h2, h3⟩
    · rw [if_neg hg]
      simp only [Bool.or_eq_true, Bool.not_eq_true', not_or, Bool.not_eq_true,
        Bool.not_eq_false] at hg
      obtain ⟨hmo, hsc, hpr, hb, hpa, hdt, hdn, hca⟩ := h1 hg.2
      cases o with
      | errBeforeCreate =>
        refine ⟨?_, ?_, ?_⟩ <;>
          simp [captureImage, captureStart, captureResolve, hmo, hb, hca, hdn]
      | errAfterCreate =>
        refine ⟨?_, ?_, ?_⟩ <;>
          simp [captureImage, captureStart, captureResolve, hmo, hb, hca, hdn]
      | ok text words =>
        cases hx : extract text words with
        | none =>
          refine ⟨?_, ?_, ?_⟩ <;>
            simp [captureImage, captureStart, captureResolve, hx, hmo, hb, hca, hdn]
        | some dp =>
          refine ⟨?_, ?_, ?_⟩ <;>
            simp [captureImage, captureStart, captureResolve, hx, hmo, hb, hca, hdn]
          simpa using extract_pending_nonempty hx
  | confirm resp =>
    simp only [stepE, stepT]
    by_cases hg : (s.showConfirmation && optStrTruthy s.pendingAmount) = true
    · rw [if_pos hg]
      simp only [Bool.and_eq_true] at hg
      have hpl : s.isVideoPlaying = false := by
        by_contra hp
        rw [Bool.not_eq_false] at hp
        exact absurd hg.1 (by rw [(h1 hp).2.1]; simp)
      have hpn : ¬ s.pendingAmount = none := by
        intro hx
        rw [hx] at hg
        exact absurd hg.2 (by simp [optStrTruthy])
      have hstep : (processConversion s resp, ([] : List EngineEvent)).1 =
          processConversionResolve
            { s with showConfirmation := false, isProcessing := true } resp := by
        simp only [processConversion, processConversionStart]
        rw [if_pos hg.2, if_pos hg.2]
      rw [hstep]
      cases hc : convert resp s.toCurrency with
      | success display =>
        refine ⟨?_, ?_, ?_⟩ <;> simp [processConversionResolve, hc, hpl, hpn]
        simpa using h3
      | errNotFound =>
        refine ⟨?_, ?_, ?_⟩ <;> simp [processConversionResolve, hc, hpl, hpn]
        simpa using h3
      | errMalformed =>
        refine ⟨?_, ?_, ?_⟩ <;> simp [processConversionResolve, hc, hpl, hpn]
        simpa using h3
    · rw [if_neg hg]; exact ⟨h1, h2, h3⟩
  | reset =>
    simp only [stepE, stepT]
    by_cases hg : s.isVideoPlaying = true
    · rw [if_pos hg]; exact ⟨h1, h2, h3⟩
    · rw [if_neg hg]
      refine ⟨?_, ?_, ?_⟩ <;> simp [resetCamera]

lemma reachable_inv {s : AppState} (h : Reachable s) : Inv s := by
  induction h with
  | init fromC toC => exact inv_init fromC toC
  | step s e _ ih => exact inv_step s e ih

/-! ## Reading the session view back into state flags -/

lemma sessionView_idle {s : AppState} (h : sessionView s = Session.Idle) :
    s.isModalOpen = false ∧ s.isProcessing = false ∧ s.showConfirmation = false ∧
    s.isVideoPlaying = true := by
  unfold sessionView at h
  split_ifs at h <;> simp_all

lemma sessionView_await {s : AppState}
    (h : sessionView s = Session.AwaitingConfirmation) :
    s.isModalOpen = false ∧ s.isProcessing = false ∧ s.showConfirmation = true ∧
    optStrTruthy s.pendingAmount = true := by
  unfold sessionView at h
  split_ifs at h <;> simp_all

lemma sessionView_failed {s : AppState} (h : sessionView s = Session.Failed) :
    s.isModalOpen = false ∧ s.isProcessing = false ∧ s.showConfirmation = true ∧
    optStrTruthy s.pendingAmount = false := by
  unfold sessionView at h
  split_ifs at h <;> simp_all

/-- Every path through `captureImage` leaves the video paused. -/
lemma captureImage_playing (s : AppState) (o : OcrOutcome) (source target : Dims) :
    (captureImage s o source target).1.isVideoPlaying = false := by
  cases o with
  | ok text words =>
    cases hx : extract text words <;>
      simp [captureImage, captureStart, captureResolve, hx]
  | errBeforeCreate => simp [captureImage, captureStart, captureResolve]
  | errAfterCreate => simp [captureImage, captureStart, captureResolve]

/-! ## Evaluating the conversion display at the example rate -/

lemma jsToFixed2_1148 : jsToFixed2 (1148 / 100 : ℚ) = 1148 := by
  unfold jsToFixed2
  rw [Int.floor_eq_iff]
  norm_num

lemma formatFixed2_1148 : formatFixed2 (1148 / 100 : ℚ) = "11.48" := by
  simp only [formatFixed2, jsToFixed2_1148]
  decide

lemma convert_usd_rate :
    convert (some [("USD", (1148 / 100 : ℚ))]) "USD" =
      ConvOutcome.success "USD 11.48" := by
  have hv : ¬ ((1148 / 100 : ℚ) = 0) := by norm_num
  simp only [convert, List.lookup, beq_self_eq_true, if_true, hv, if_false,
    ite_false, formatFixed2_1148]
  decide

/-- Binarization is a fixed point on its own output pixels. -/
lemma preprocessPixel_idem (p : Pixel) :
    preprocessPixel (preprocessPixel p) = preprocessPixel p := by
  by_cases h : (128 : ℚ) < adjust (grayOf p.r p.g p.b) <;>
    simp only [preprocessPixel, binarize, h, if_true, if_false] <;>
    norm_num [adjust, grayOf, contrastFactor]

/-! ## Claims -/

/-- C3: `extract` on recognized text "Total: $12.50 due" with an
associable token yields normalizedAmount "12.50": the first
currency-pattern substring is "$12.50" and stripping every character
except digits and the decimal point gives "12.50"; `extract` on text
containing no digits, such as "no price here", yields null. -/
theorem c3_extract_examples :
    extract "Total: $12.50 due" [w0] = some ⟨"$12.50", "12.50", bb0⟩ ∧
    jsMatch "Total: $12.50 due" = some "$12.50" ∧
    cleanNumber "$12.50" = "12.50" ∧
    extract "no price here" [⟨"no price here", bb0⟩] = none := by
  decide

/-- C4: for every recognition result whose full text has a
currency-pattern match, if no token's text contains the match —
directly or after stripping commas and spaces from both — then
`extract` returns null even though a textual match existed. -/
theorem c4_unassociable_match_fails (text : String) (words : List Token)
    (m : String) (hm : jsMatch text = some m)
    (hno : ∀ w ∈ words, wordAssociates m w = false) :
    extract text words = none := by
  simp only [extract, hm]
  by_cases hw : words.isEmpty = true
  · rw [if_pos hw]
  · rw [if_neg hw]
    have hfind : words.find? (wordAssociates m) = none :=
      List.find?_eq_none.mpr fun w hwm => by simp [hno w hwm]
    rw [hfind]

theorem c4_witness : extract "$12.50" [⟨"zzz", bb0⟩] = none :=
  c4_unassociable_match_fails "$12.50" [⟨"zzz", bb0⟩] "$12.50"
    (by decide) (by decide)

/-- C5: on every frame of pixels with valid RGB channel values, each
pixel's output channels are 255 when the contrast-adjusted luma
`adjust (grayOf r g b)` exceeds 128 and 0 otherwise, with alpha
unchanged; hence every output channel is exactly 0 or 255, and
preprocessing an already-preprocessed frame yields the same frame. -/
theorem c5_preprocess_binarizes (fr : List Pixel)
    (hv : ∀ p ∈ fr, p.r ≤ 255 ∧ p.g ≤ 255 ∧ p.b ≤ 255) :
    (∀ p ∈ fr,
      ((128 : ℚ) < adjust (grayOf p.r p.g p.b) →
        preprocessPixel p = ⟨255, 255, 255, p.a⟩) ∧
      (¬ (128 : ℚ) < adjust (grayOf p.r p.g p.b) →
        preprocessPixel p = ⟨0, 0, 0, p.a⟩)) ∧
    (∀ q ∈ preprocessImage fr, (q.r = 0 ∨ q.r = 255) ∧ q.g = q.r ∧ q.b = q.r) ∧
    preprocessImage (preprocessImage fr) = preprocessImage fr := by
  refine ⟨?_, ?_, ?_⟩
  · intro p _
    constructor <;> intro h <;> simp [preprocessPixel, binarize, h]
  · intro q hq
    simp only [preprocessImage, List.mem_map] at hq
    obtain ⟨p, _, rfl⟩ := hq
    by_cases h : (128 : ℚ) < adjust (grayOf p.r p.g p.b) <;>
      simp [preprocessPixel, binarize, h]
  · induction fr with
    | nil => rfl
    | cons p ps ih =>
      have hps : ∀ q ∈ ps, q.r ≤ 255 ∧ q.g ≤ 255 ∧ q.b ≤ 255 :=
        fun q hq => hv q (List.mem_cons_of_mem p hq)
      simp only [preprocessImage, List.map_cons] at ih ⊢
      rw [preprocessPixel_idem, ih hps]

theorem c5_witness :
    preprocessImage (preprocessImage [⟨255, 0, 0, 7⟩]) =
      preprocessImage [⟨255, 0, 0, 7⟩] :=
  (c5_preprocess_binarizes [⟨255, 0, 0, 7⟩] (by decide)).2.2

/-- C6: the coordinate mapping scales each coordinate and each
dimension of the box independently by `scaleX = target.w / source.w`
and `scaleY = target.h / source.h`, and when the target dimensions
equal the source dimensions it is the identity on the box. -/
theorem c6_mapBox_scales (b : PixelBox) (source target : Dims)
    (hw : source.w ≠ 0) (hh : source.h ≠ 0) :
    mapBox b source target =
      ⟨b.x0 * (target.w / source.w), b.y0 * (target.h / source.h),
       (b.x1 - b.x0) * (target.w / source.w),
       (b.y1 - b.y0) * (target.h / source.h)⟩ ∧
    mapBox b source source = ⟨b.x0, b.y0, b.x1 - b.x0, b.y1 - b.y0⟩ := by
  constructor
  · rfl
  · simp [mapBox, div_self hw, div_self hh]

theorem c6_witness : mapBox ⟨1, 2, 5, 7⟩ ⟨4, 3⟩ ⟨4, 3⟩ = ⟨1, 2, 4, 5⟩ := by
  have h := (c6_mapBox_scales ⟨1, 2, 5, 7⟩ ⟨4, 3⟩ ⟨4, 3⟩
    (by norm_num) (by norm_num)).2
  rw [h]
  norm_num

/-- C1 counterexample: the response `{rates: {USD: 0}}` contains a
numeric rate for the target currency, yet the conversion does not
succeed — the truthiness test `if (convertedValue)` sends a zero rate
into the `Currency not found in response` branch. -/
theorem c1_zero_rate_cex :
    (List.lookup "USD" [("USD", (0 : ℚ))]).isSome = true ∧
    convert (some [("USD", (0 : ℚ))]) "USD" = ConvOutcome.errNotFound := by
  constructor
  · rfl
  · simp [convert]

/-- C1 (amended): the conversion succeeds exactly when the response
contains a NONZERO numeric rate for `toCurrency`, and then the
displayed result is that rate — the already-converted total — rendered
by `toFixed(2)`; an absent key yields the not-found error, as does a
zero rate; a malformed response yields the malformed error. -/
theorem c1_convert_spec (rates : List (String × ℚ)) (toC : String) :
    (∀ v, List.lookup toC rates = some v → ¬ v = 0 →
      convert (some rates) toC =
        ConvOutcome.success (toC ++ " " ++ formatFixed2 v)) ∧
    (List.lookup toC rates = none →
      convert (some rates) toC = ConvOutcome.errNotFound) ∧
    (List.lookup toC rates = some 0 →
      convert (some rates) toC = ConvOutcome.errNotFound) ∧
    convert none toC = ConvOutcome.errMalformed := by
  refine ⟨?_, ?_, ?_, rfl⟩
  · intro v hv hnz
    simp [convert, hv, hnz]
  · intro hv
    simp [convert, hv]
  · intro hv
    simp [convert, hv]

theorem c1_witness :
    convert (some [("USD", (1148 / 100 : ℚ))]) "USD" =
      ConvOutcome.success "USD 11.48" := by
  have h := (c1_convert_spec [("USD", (1148 / 100 : ℚ))] "USD").1
    (1148 / 100) (by rfl) (by norm_num)
  rw [h, formatFixed2_1148]
  decide

/-- C2 counterexample: from the reachable state awaiting confirmation
of "$12.50", a failing conversion leaves `pendingAmount` set, so the
bottom sheet re-renders the confirmation UI: the session view is
AwaitingConfirmation again, not Failed. -/
theorem c2_failed_conv_cex :
    sessionView sAC = Session.AwaitingConfirmation ∧
    sFailConv.detectedText = some msgConvFailed ∧
    sFailConv.pendingAmount = some "12.50" ∧
    sessionView sFailConv = Session.AwaitingConfirmation ∧
    ¬ sessionView sFailConv = Session.Failed := by
  decide

/-- C2 (amended): every failing conversion attempt initiated from the
confirmation state is caught at the handler boundary: the processing
flag is cleared, the human-readable reason is stored in
`detectedText`, and the confirmation sheet reopens with the pending
amount retained, so the session re-enters AwaitingConfirmation (the
`Detection Failed` view requires an empty pending amount); no error
escapes the handler. -/
theorem c2_conv_failure_caught (s : AppState)
    (resp : Option (List (String × ℚ)))
    (hview : sessionView s = Session.AwaitingConfirmation)
    (hfail : convIsFailure (convert resp s.toCurrency) = true) :
    (processConversion s resp).detectedText = some msgConvFailed ∧
    (processConversion s resp).showConfirmation = true ∧
    (processConversion s resp).isProcessing = false ∧
    (processConversion s resp).pendingAmount = s.pendingAmount ∧
    sessionView (processConversion s resp) = Session.AwaitingConfirmation := by
  obtain ⟨hmo, hpr, hsc, hpt⟩ := sessionView_await hview
  have hstep : processConversion s resp =
      processConversionResolve
        { s with showConfirmation := false, isProcessing := true } resp := by
    simp only [processConversion, processConversionStart]
    rw [if_pos hpt, if_pos hpt]
  rw [hstep]
  cases hc : convert resp s.toCurrency with
  | success display => rw [hc] at hfail; simp [convIsFailure] at hfail
  | errNotFound =>
    refine ⟨?_, ?_, ?_, ?_, ?_⟩ <;>
      simp [processConversionResolve, hc, sessionView, hmo, hpt]
  | errMalformed =>
    refine ⟨?_, ?_, ?_, ?_, ?_⟩ <;>
      simp [processConversionResolve, hc, sessionView, hmo, hpt]

theorem c2_witness :
    (processConversion sAC none).detectedText = some msgConvFailed ∧
    (processConversion sAC none).showConfirmation = true ∧
    (processConversion sAC none).isProcessing = false ∧
    (processConversion sAC none).pendingAmount = sAC.pendingAmount ∧
    sessionView (processConversion sAC none) = Session.AwaitingConfirmation :=
  c2_conv_failure_caught sAC none (by decide) (by decide)

/-- C7: in every reachable state whose view is Idle or Failed, the
per-cycle detection state of any previous cycle is discarded: no
display bounding box, no pending amount, no detected number, no
converted amount; in Idle the detected text is clear, and in Failed it
holds one of the two fixed failure reasons of the current failure —
never a previous cycle's detection — so no stale detection box can
render after reset or failure. -/
theorem c7_idle_failed_discard (s : AppState) (h : Reachable s) :
    (sessionView s = Session.Idle →
      s.detectedBounds = none ∧ s.pendingAmount = none ∧
      s.detectedText = none ∧ s.detectedNumber = none ∧
      s.convertedAmount = none) ∧
    (sessionView s = Session.Failed →
      s.detectedBounds = none ∧ s.pendingAmount = none ∧
      s.detectedNumber = none ∧ s.convertedAmount = none ∧
      (s.detectedText = some msgNoPrice ∨
        s.detectedText = some msgErrProcessing)) := by
  obtain ⟨h1, h2, h3⟩ := reachable_inv h
  constructor
  · intro hv
    obtain ⟨hmo, hpr, hsc, hpl⟩ := sessionView_idle hv
    obtain ⟨_, _, _, hb, hpa, hdt, hdn, hca⟩ := h1 hpl
    exact ⟨hb, hpa, hdt, hdn, hca⟩
  · intro hv
    obtain ⟨hmo, hpr, hsc, hpt⟩ := sessionView_failed hv
    have hpn : s.pendingAmount = none := by
      cases hx : s.pendingAmount with
      | none => rfl
      | some t =>
        have hne := h3 t hx
        rw [hx] at hpt
        simp [optStrTruthy, hne] at hpt
    obtain ⟨hb, hca, hdn, htext⟩ := h2 hmo hsc hpn
    exact ⟨hb, hpn, hdn, hca, htext⟩

theorem c7_witness :
    sNoPrice.detectedBounds = none ∧ sNoPrice.pendingAmount = none ∧
    sNoPrice.detectedNumber = none ∧ sNoPrice.convertedAmount = none ∧
    (sNoPrice.detectedText = some msgNoPrice ∨
      sNoPrice.detectedText = some msgErrProcessing) :=
  (c7_idle_failed_discard sNoPrice
    (Reachable.step s0 (Event.capture (OcrOutcome.ok "no price here" []) d0 t0)
      (Reachable.init "PHP" "USD"))).2 (by decide)

/-- C8: capture is single-flight.  From any reachable state not in the
Idle view, a capture event is a no-op with an empty engine trace (the
button is disabled); immediately after the synchronous prefix of a
capture, a second capture is a no-op; and after any capture event a
further capture is a no-op with an empty trace — so two captures in
quick succession execute exactly one pipeline. -/
theorem c8_single_flight (s : AppState) (h : Reachable s) :
    (∀ o source target, ¬ sessionView s = Session.Idle →
      stepT s (Event.capture o source target) = (s, [])) ∧
    (∀ o source target,
      stepT (captureStart s) (Event.capture o source target) =
        (captureStart s, [])) ∧
    (∀ o source target o' source' target',
      stepT (stepE s (Event.capture o source target))
          (Event.capture o' source' target') =
        (stepE s (Event.capture o source target), [])) := by
  obtain ⟨h1, _, _⟩ := reachable_inv h
  refine ⟨?_, ?_, ?_⟩
  · intro o source target hv
    simp only [stepT]
    by_cases hg : (s.isProcessing || !s.isVideoPlaying) = true
    · rw [if_pos hg]
    · exfalso
      simp only [Bool.or_eq_true, Bool.not_eq_true', not_or, Bool.not_eq_true,
        Bool.not_eq_false] at hg
      obtain ⟨hmo, hsc, hpr, _⟩ := h1 hg.2
      exact hv (by simp [sessionView, hmo, hsc, hpr, hg.1, hg.2])
  · intro o source target
    simp [stepT, captureStart]
  · intro o source target o' source' target'
    simp only [stepT, stepE]
    by_cases hg : (s.isProcessing || !s.isVideoPlaying) = true
    · rw [if_pos hg, if_pos hg]
    · rw [if_neg hg]
      have hp := captureImage_playing s o source target
      rw [if_pos (by rw [hp]; simp)]

theorem c8_witness :
    stepT (stepE s0 (Event.capture (OcrOutcome.ok "no price here" []) d0 t0))
        (Event.capture (OcrOutcome.ok "no price here" []) d0 t0) =
      (stepE s0 (Event.capture (OcrOutcome.ok "no price here" []) d0 t0), []) :=
  (c8_single_flight s0 (Reachable.init "PHP" "USD")).2.2
    (OcrOutcome.ok "no price here" []) d0 t0
    (OcrOutcome.ok "no price here" []) d0 t0

/-- C9: the engine is NOT disposed on every code path.  When an await
after worker creation throws (e.g. `recognize` fails), the catch
branch runs without `worker.terminate()` — the lifecycle trace of that
call is `[create]` with no `terminate` — whereas the success path does
dispose the worker it created. -/
theorem c9_engine_leak_on_error :
    (captureImage s0 OcrOutcome.errAfterCreate d0 t0).2 =
      [EngineEvent.create] ∧
    ¬ EngineEvent.terminate ∈
      (captureImage s0 OcrOutcome.errAfterCreate d0 t0).2 ∧
    (captureImage s0 (OcrOutcome.ok "Total: $12.50 due" [w0]) d0 t0).2 =
      [EngineEvent.create, EngineEvent.terminate] := by
  decide

/-- C10: there is no cancellation.  With the conversion request for the
confirmed "$12.50" in flight, a reset returns the session to Idle with
`convertedAmount` cleared; when the response `{rates: {USD: 11.48}}`
then resolves, its continuation still runs: it writes
`convertedAmount` and opens the result modal after the newer cycle has
started, instead of resolving as a cancelled outcome. -/
theorem c10_late_response_mutates :
    sessionView sAC = Session.AwaitingConfirmation ∧
    sessionView sAfterReset = Session.Idle ∧
    sAfterReset.convertedAmount = none ∧
    sLate.convertedAmount = some "USD 11.48" ∧
    sLate.isModalOpen = true := by
  have htc : sAfterReset.toCurrency = "USD" := by decide
  refine ⟨by decide, by decide, by decide, ?_, ?_⟩ <;>
    simp only [sLate, processConversionResolve, htc, convert_usd_rate]

end App
